import Mathlib

/-!
Verification of the REASoN ingestion-normalization-scoring-merge pipeline.

The numeric model uses exact rationals (`ℚ`) for JavaScript numbers;
`Math.round` is modelled as `⌊x + 1/2⌋` (which is exactly what
`Math.round` computes, including for negative arguments) and integer
results are `ℤ`.  Records follow the declared shapes in `types.ts`;
the defensive null/array guards in the source (`if (student.grades …)`,
`if (student.core)`) are vacuous for records of those declared shapes
and are therefore not reproduced as separate branches.
-/

/-- One task entry (`Assignment` in `types.ts`). -/
structure Assignment where
  name : String
  score : ℚ
  maxScore : ℚ
  type : String
  status : String
deriving DecidableEq, Repr

/-- One subject-performance entry (`SubjectGrade` in `types.ts`). -/
structure SubjectGrade where
  subject : String
  level : String
  currentMark : ℚ
  predictedGrade : ℚ
  trend : String
  assignments : List Assignment
deriving DecidableEq, Repr

/-- Core-component progress (`CoreStatus` in `types.ts`). -/
structure CoreStatus where
  ee : String
  tok : String
  cas : String
  points : ℚ
deriving DecidableEq, Repr

/-- One historical risk-score trail entry. -/
structure HistEntry where
  date : String
  score : ℤ
deriving DecidableEq, Repr

/-- The canonical record (`Student` in `types.ts`). -/
structure Student where
  id : String
  name : String
  yearGroup : String
  attendance : ℚ
  lessonsMissed : ℚ
  grades : List SubjectGrade
  core : CoreStatus
  riskScore : ℤ
  totalPoints : ℚ
  lastUpdated : String
  historicalRiskScores : List HistEntry
deriving DecidableEq, Repr

/-- The weight configuration (`RiskWeights` in `types.ts`). -/
structure RiskWeights where
  attendanceWeight : ℚ
  lowGradeWeight : ℚ
  coreRiskWeight : ℚ
  trendWeight : ℚ
  iaRiskWeight : ℚ
  missingAssignmentWeight : ℚ
deriving DecidableEq, Repr

/-- `DEFAULT_WEIGHTS` from `constants.ts`. -/
def DEFAULT_WEIGHTS : RiskWeights :=
  { attendanceWeight := 0.25
    lowGradeWeight := 0.35
    coreRiskWeight := 0.15
    trendWeight := 0.1
    iaRiskWeight := 0.1
    missingAssignmentWeight := 0.05 }

/-- JavaScript `Math.round`: round half toward positive infinity. -/
def jsRound (q : ℚ) : ℤ := Rat.floor (q + 1 / 2)

/-- The attendance term of `calculateRiskScore`:
`const attendanceVal = student.attendance || 100;`
`score += (Math.max(0, 95 - attendanceVal) * weights.attendanceWeight) * 5;`
(`student.attendance || 100` replaces the falsy value `0` by `100`). -/
def attendanceContrib (s : Student) (w : RiskWeights) : ℚ :=
  let attendanceVal := if s.attendance = 0 then 100 else s.attendance
  (max 0 (95 - attendanceVal) * w.attendanceWeight) * 5

/-- The per-assignment low-IA term of `calculateRiskScore`:
`if (a.type === 'IA' && a.maxScore > 0 && (a.score / a.maxScore) < 0.4)`
adds `20 * weights.iaRiskWeight`. -/
def assignContrib (w : RiskWeights) (a : Assignment) : ℚ :=
  if a.type = "IA" ∧ 0 < a.maxScore ∧ a.score / a.maxScore < 0.4 then
    20 * w.iaRiskWeight
  else 0

/-- The per-subject terms of `calculateRiskScore`: the low-grade penalty
(`mark < 4 && mark > 0` adds `(4 - mark) * 15 * weights.lowGradeWeight`),
the negative-trend penalty (`10 * weights.trendWeight`), and the
assignment IA terms. -/
def gradeContrib (w : RiskWeights) (g : SubjectGrade) : ℚ :=
  (if g.currentMark < 4 ∧ 0 < g.currentMark then
      (4 - g.currentMark) * 15 * w.lowGradeWeight
    else 0)
  + (if g.trend = "down" then 10 * w.trendWeight else 0)
  + (g.assignments.map (assignContrib w)).sum

/-- The count of task entries with `status === 'Missing'` across all subjects. -/
def missingCount (s : Student) : ℕ :=
  (s.grades.map (fun g => (g.assignments.filter (fun a => a.status = "Missing")).length)).sum

/-- The core-component terms of `calculateRiskScore`. -/
def coreContrib (s : Student) (w : RiskWeights) : ℚ :=
  (if s.core.ee = "At Risk" then 35 * w.coreRiskWeight else 0)
  + (if s.core.tok = "At Risk" then 30 * w.coreRiskWeight else 0)
  + (if s.core.cas = "Behind" then 25 * w.coreRiskWeight else 0)

/-- The accumulated `score` variable of `calculateRiskScore` just before
the final `Math.min(100, Math.round(score))`. -/
def riskRaw (s : Student) (w : RiskWeights) : ℚ :=
  attendanceContrib s w
  + (s.grades.map (gradeContrib w)).sum
  + (missingCount s : ℚ) * 12 * w.missingAssignmentWeight
  + coreContrib s w

/-- `calculateRiskScore` from `services/dataService.ts`:
returns `Math.min(100, Math.round(score))`. -/
def calculateRiskScore (s : Student) (w : RiskWeights) : ℤ :=
  min 100 (jsRound (riskRaw s w))

/-- `calculateTotalPoints` from `services/dataService.ts`: sum the marks in
`[1,7]` (others contribute zero), add `core.points`, cap at 45. -/
def calculateTotalPoints (s : Student) : ℚ :=
  let summativeAcademicPoints :=
    (s.grades.map (fun g =>
      if 1 ≤ g.currentMark ∧ g.currentMark ≤ 7 then g.currentMark else 0)).sum
  min 45 (summativeAcademicPoints + s.core.points)

/-- The scored copy of an incoming record built in `App.tsx`
(`handleFileUpload`): `{ ...newS, riskScore: calculateRiskScore(newS,
weights), totalPoints: calculateTotalPoints(newS) }`. -/
def withStats (s : Student) (w : RiskWeights) : Student :=
  { s with riskScore := calculateRiskScore s w, totalPoints := calculateTotalPoints s }

/-- JavaScript `Array.prototype.slice(-n)`: the at most `n` last elements. -/
def lastN (n : ℕ) (l : List α) : List α := l.drop (l.length - n)

/-- The roster entry written on an identity match in `handleFileUpload`:
the scored incoming record, with the matched entry's history extended by
`{ date: now, score: withStats.riskScore }` and cut to the last 10. -/
def mergedEntry (w : RiskWeights) (now : String) (old newS : Student) : Student :=
  { withStats newS w with
      historicalRiskScores :=
        lastN 10 (old.historicalRiskScores
          ++ [{ date := now, score := (withStats newS w).riskScore }]) }

/-- One step of the merge loop in `handleFileUpload`: the first roster entry
whose `id` equals the incoming record's `id` is replaced (`findIndex` /
assignment at that index); when there is none the scored record is pushed. -/
def mergeOne (w : RiskWeights) (now : String) : List Student → Student → List Student
  | [], newS => [withStats newS w]
  | old :: rest, newS =>
      if old.id = newS.id then mergedEntry w now old newS :: rest
      else old :: mergeOne w now rest newS

/-- The whole merge of `handleFileUpload`: fold the incoming batch over the
existing roster (`const merged = [...prev]; parsedStudents.forEach(...)`). -/
def mergeStudents (w : RiskWeights) (now : String)
    (prev parsed : List Student) : List Student :=
  parsed.foldl (mergeOne w now) prev

/-- The identities of a roster, in order. -/
def rosterIds (l : List Student) : List String := l.map Student.id

/-- The whitespace characters removed by `String.prototype.trim` (the ASCII
ones, which are the only ones our inputs contain). -/
def isWsChar (c : Char) : Bool := c = ' ' ∨ c = '\t' ∨ c = '\n' ∨ c = '\r'

/-- JavaScript `String.prototype.trim` over a character list. -/
def trimChars (l : List Char) : List Char :=
  ((l.dropWhile isWsChar).reverse.dropWhile isWsChar).reverse

/-- JavaScript `String.prototype.trim`. -/
def jsTrim (s : String) : String := String.mk (trimChars s.data)

/-- The character loop of `parseCSVRow`: `inQ` is the `inQuotes` flag, `cur`
the field accumulator, `res` the fields emitted so far.  A quote while
`inQuotes` with another quote right behind emits one literal quote and
consumes both; any other quote toggles the flag; a comma outside quotes
emits the trimmed accumulator; everything else is appended. -/
def csvGo : List Char → Bool → List Char → List String → List String
  | [], _, cur, res => res ++ [jsTrim (String.mk cur)]
  | c :: rest, inQ, cur, res =>
    if c = '"' then
      if inQ then
        match rest with
        | c2 :: rest2 =>
            if c2 = '"' then csvGo rest2 true (cur ++ ['"']) res
            else csvGo (c2 :: rest2) false cur res
        | [] => csvGo [] false cur res
      else csvGo rest true cur res
    else if c = ',' ∧ inQ = false then
      csvGo rest inQ [] (res ++ [jsTrim (String.mk cur)])
    else csvGo rest inQ (cur ++ [c]) res

/-- `parseCSVRow` from `services/dataService.ts`. -/
def parseCSVRow (row : String) : List String := csvGo row.data false [] []

/-- CSV quote-doubling: every quote character becomes two. -/
def escDD : List Char → List Char
  | [] => []
  | c :: t => if c = '"' then '"' :: '"' :: escDD t else c :: escDD t

/-- A CSV-quoted field: the doubled content wrapped in one pair of quotes. -/
def encFieldChars (f : List Char) : List Char := '"' :: (escDD f ++ ['"'])

/-- A CSV row built from quoted fields joined by commas. -/
def encRowChars : List (List Char) → List Char
  | [] => []
  | [f] => encFieldChars f
  | f :: g :: fs => encFieldChars f ++ ',' :: encRowChars (g :: fs)

/-- String version of `encRowChars`. -/
def encodeRow (fs : List String) : String :=
  String.mk (encRowChars (fs.map String.data))

/-- A decoded JSON value (the result shape of `JSON.parse`). -/
inductive JValue where
  | jnull : JValue
  | jbool (b : Bool) : JValue
  | jnum (q : ℚ) : JValue
  | jstr (s : String) : JValue
  | jarr (xs : List JValue) : JValue
  | jobj (fields : List (String × JValue)) : JValue

/-- The JSON whitespace characters. -/
def skipWs (l : List Char) : List Char :=
  l.dropWhile (fun c => c = ' ' ∨ c = '\t' ∨ c = '\n' ∨ c = '\r')

/-- The value of a digit list, most significant first. -/
def digitsToNat (ds : List Char) : ℕ :=
  ds.foldl (fun n c => 10 * n + (c.toNat - 48)) 0

/-- JSON number literal: optional minus, digits, optional fraction.
(Exponents do not occur in this repository's data and are rejected.) -/
def parseJNum (cs : List Char) : Option (ℚ × List Char) :=
  let p := match cs with
           | '-' :: r => (true, r)
           | _ => (false, cs)
  let neg := p.1
  let cs1 := p.2
  let ds := cs1.takeWhile Char.isDigit
  let rest := cs1.dropWhile Char.isDigit
  if ds.isEmpty then none
  else
    match rest with
    | '.' :: r =>
        let fs := r.takeWhile Char.isDigit
        if fs.isEmpty then none
        else
          let v : ℚ := (digitsToNat ds : ℚ) + (digitsToNat fs : ℚ) / (10 ^ fs.length)
          some (if neg then -v else v, r.dropWhile Char.isDigit)
    | _ =>
        let v : ℚ := (digitsToNat ds : ℚ)
        some (if neg then -v else v, rest)

/-- JSON string literal body (after the opening quote), with the common
backslash escapes; `acc` is the reversed content so far. -/
def parseJStrAux : List Char → List Char → Option (String × List Char)
  | [], _ => none
  | '"' :: rest, acc => some (String.mk acc.reverse, rest)
  | '\\' :: e :: rest, acc =>
      if e = '"' then parseJStrAux rest ('"' :: acc)
      else if e = '\\' then parseJStrAux rest ('\\' :: acc)
      else if e = '/' then parseJStrAux rest ('/' :: acc)
      else if e = 'n' then parseJStrAux rest ('\n' :: acc)
      else if e = 't' then parseJStrAux rest ('\t' :: acc)
      else if e = 'r' then parseJStrAux rest ('\r' :: acc)
      else none
  | '\\' :: [], _ => none
  | c :: rest, acc => parseJStrAux rest (c :: acc)

/-- What `parseJ` is currently parsing: a single value, the remaining
elements of an array (returned as `jarr`), or the remaining members of an
object (returned as `jobj`). -/
inductive JMode where
  | value : JMode
  | elems : JMode
  | members : JMode

/-- Fueled recursive-descent JSON parser (fuel only bounds nesting; it is
chosen large enough in `parseJson` that it never runs out on real input). -/
def parseJ : ℕ → JMode → List Char → Option (JValue × List Char)
  | 0, _, _ => none
  | Nat.succ fuel, JMode.value, cs =>
    match skipWs cs with
    | 'n' :: 'u' :: 'l' :: 'l' :: rest => some (JValue.jnull, rest)
    | 't' :: 'r' :: 'u' :: 'e' :: rest => some (JValue.jbool true, rest)
    | 'f' :: 'a' :: 'l' :: 's' :: 'e' :: rest => some (JValue.jbool false, rest)
    | '"' :: rest =>
        match parseJStrAux rest [] with
        | some (s, r) => some (JValue.jstr s, r)
        | none => none
    | '[' :: rest =>
        (match skipWs rest with
         | ']' :: r2 => some (JValue.jarr [], r2)
         | other => parseJ fuel JMode.elems other)
    | '\x7b' :: rest =>
        (match skipWs rest with
         | '\x7d' :: r2 => some (JValue.jobj [], r2)
         | other => parseJ fuel JMode.members other)
    | other => (parseJNum other).map (fun p => (JValue.jnum p.1, p.2))
  | Nat.succ fuel, JMode.elems, cs =>
    match parseJ fuel JMode.value cs with
    | none => none
    | some (v, r) =>
      match skipWs r with
      | ',' :: r2 =>
          (match parseJ fuel JMode.elems r2 with
           | some (JValue.jarr vs, r3) => some (JValue.jarr (v :: vs), r3)
           | _ => none)
      | ']' :: r2 => some (JValue.jarr [v], r2)
      | _ => none
  | Nat.succ fuel, JMode.members, cs =>
    match skipWs cs with
    | '"' :: r =>
      (match parseJStrAux r [] with
       | none => none
       | some (k, r1) =>
         match skipWs r1 with
         | ':' :: r2 =>
           (match parseJ fuel JMode.value r2 with
            | none => none
            | some (v, r3) =>
              match skipWs r3 with
              | ',' :: r4 =>
                  (match parseJ fuel JMode.members r4 with
                   | some (JValue.jobj ms, r5) => some (JValue.jobj ((k, v) :: ms), r5)
                   | _ => none)
              | '\x7d' :: r4 => some (JValue.jobj [(k, v)], r4)
              | _ => none)
         | _ => none)
    | _ => none

/-- `JSON.parse`: parse one value and require only whitespace behind it;
`none` models the thrown `SyntaxError`. -/
def parseJson (s : String) : Option JValue :=
  match parseJ (2 * s.data.length + 8) JMode.value s.data with
  | some (v, rest) => if (skipWs rest).isEmpty then some v else none
  | none => none

/-- Field lookup on a decoded JSON object (property access on the parsed
value); anything but an object has no fields. -/
def JValue.getField : JValue → String → Option JValue
  | JValue.jobj fs, k => (fs.find? (fun p => p.1 = k)).map Prod.snd
  | _, _ => none

/-- A string-valued property, or the default when absent or not a string. -/
def jGetStr (j : JValue) (k dflt : String) : String :=
  match j.getField k with
  | some (JValue.jstr s) => s
  | _ => dflt

/-- A number-valued property, or the default when absent or not a number
(an absent numeric property reaches the scoring code as `NaN`, which
contributes exactly as the default `0` does in both scoring functions). -/
def jGetNum (j : JValue) (k : String) (dflt : ℚ) : ℚ :=
  match j.getField k with
  | some (JValue.jnum q) => q
  | _ => dflt

/-- The typed view of one decoded assignment object. -/
def decodeAssignment (j : JValue) : Assignment :=
  { name := jGetStr j "name" ""
    score := jGetNum j "score" 0
    maxScore := jGetNum j "maxScore" 0
    type := jGetStr j "type" ""
    status := jGetStr j "status" "" }

/-- The typed view of one decoded subject-grade object
(`grade.assignments?.forEach` skips a missing or non-array value). -/
def decodeGrade (j : JValue) : SubjectGrade :=
  { subject := jGetStr j "subject" ""
    level := jGetStr j "level" ""
    currentMark := jGetNum j "currentMark" 0
    predictedGrade := jGetNum j "predictedGrade" 0
    trend := jGetStr j "trend" ""
    assignments :=
      match j.getField "assignments" with
      | some (JValue.jarr xs) => xs.map decodeAssignment
      | _ => [] }

/-- The typed view of the decoded core object: a property that is absent
compares unequal to every status string and `core.points || 0` is `0`. -/
def decodeCore (j : JValue) : CoreStatus :=
  { ee := jGetStr j "ee" ""
    tok := jGetStr j "tok" ""
    cas := jGetStr j "cas" ""
    points := jGetNum j "points" 0 }

/-- The initial `parsedCore` value in `parseManageBacCSV`. -/
def defaultCore : CoreStatus :=
  { ee := "Not Started", tok := "Not Started", cas := "On Track", points := 0 }

/-- Row splitting on `/\r?\n/` (the regex eats a `\r` only together with
the `\n` behind it); `acc` holds the reversed current segment. -/
def splitLinesC : List Char → List Char → List (List Char)
  | [], acc => [acc.reverse]
  | '\r' :: '\n' :: rest, acc => acc.reverse :: splitLinesC rest []
  | '\n' :: rest, acc => acc.reverse :: splitLinesC rest []
  | c :: rest, acc => splitLinesC rest (c :: acc)

/-- `.replace(/[^0-9.]/g, '')`. -/
def stripToNumDot (s : String) : String :=
  String.mk (s.data.filter (fun c => c.isDigit ∨ c = '.'))

/-- `.replace(/[^0-9]/g, '')`. -/
def stripToNum (s : String) : String :=
  String.mk (s.data.filter Char.isDigit)

/-- JavaScript `parseFloat` restricted to inputs containing only digits and
dots (which is all that survives `stripToNumDot`): the longest numeric
prefix, `none` for `NaN`. -/
def parseFloatJS (s : String) : Option ℚ :=
  let cs := s.data
  let ds := cs.takeWhile Char.isDigit
  let rest := cs.dropWhile Char.isDigit
  match rest with
  | '.' :: r =>
      let fs := r.takeWhile Char.isDigit
      if ds.isEmpty ∧ fs.isEmpty then none
      else some ((digitsToNat ds : ℚ) + (digitsToNat fs : ℚ) / (10 ^ fs.length))
  | _ => if ds.isEmpty then none else some (digitsToNat ds)

/-- JavaScript `parseInt` restricted to digit-only inputs (all that survives
`stripToNum`): `none` for `NaN`. -/
def parseIntJS (s : String) : Option ℕ :=
  if s.data.isEmpty then none else some (digitsToNat s.data)

/-- Is `pat` a contiguous substring of the character list? -/
def hasSub (pat : List Char) : List Char → Bool
  | [] => pat.isPrefixOf []
  | h :: t => pat.isPrefixOf (h :: t) || hasSub pat t

/-- ASCII lower-casing of one character (`String.prototype.toLowerCase`;
the cohort tokens searched for are ASCII). -/
def jsLowerChar (c : Char) : Char :=
  if 'A' ≤ c ∧ c ≤ 'Z' then Char.ofNat (c.toNat + 32) else c

/-- `normalizeYearGroup` from `services/dataService.ts`: lower-case the raw
token and look for the later-cohort indicator substrings. -/
def normalizeYearGroup (val : String) : String :=
  let lower := val.data.map jsLowerChar
  if hasSub "dp2".data lower ∨ hasSub "y12".data lower
      ∨ hasSub "12".data lower then
    "DP2 (Y12)"
  else "DP1 (Y11)"

/-- The CSV-style unescaping applied before `JSON.parse`: strip one outer
pair of quotes when present, then undouble every `""`. -/
def replaceDD : List Char → List Char
  | [] => []
  | '"' :: '"' :: rest => '"' :: replaceDD rest
  | c :: rest => c :: replaceDD rest

/-- `(s.startsWith('"') && s.endsWith('"')) ? s.slice(1, -1).replace(/""/g,
'"') : s.replace(/""/g, '"')`. -/
def unescapeField (s : String) : String :=
  if s.data.head? = some '"' ∧ s.data.getLast? = some '"' then
    String.mk (replaceDD ((s.data.drop 1).dropLast))
  else String.mk (replaceDD s.data)

/-- The guard `if (col && col !== '""')` around each embedded column,
returning the string handed to `JSON.parse` when the guard passes. -/
def needsParse (s : String) : Option String :=
  if s = "" ∨ s = "\"\"" then none else some (unescapeField s)

/-- The result of `JSON.parse` on the core column alone, or the baseline on
a decode failure or an absent column. -/
def decodeCoreCol (c : String) : CoreStatus :=
  match needsParse c with
  | some cs =>
      match parseJson cs with
      | some v => decodeCore v
      | none => defaultCore
  | none => defaultCore

/-- The shared `try { … } catch` around the two `JSON.parse` calls in
`parseManageBacCSV`: a failure of the first (grades) decode throws before
the core decode runs, so the core keeps its baseline even when its own
column is well formed; a failure of the second leaves the already-assigned
grades intact.  A decoded grades value that is not an array is replaced by
`[]` (`Array.isArray(parsedGrades) ? parsedGrades : []`). -/
def decodeEmbedded (g c : String) : List SubjectGrade × CoreStatus :=
  match needsParse g with
  | some gs =>
      match parseJson gs with
      | none => ([], defaultCore)
      | some gv =>
          let grades :=
            match gv with
            | JValue.jarr xs => xs.map decodeGrade
            | _ => []
          (grades, decodeCoreCol c)
  | none => ([], decodeCoreCol c)

/-- The body of the per-row loop of `parseManageBacCSV` (an absent column
reaches the destructuring as `undefined`, which behaves exactly as the
empty string does at every use site; the random suffix of a synthesized
identity is irrelevant to every property here and is left empty; `today`
stands for `new Date().toISOString().split('T')[0]`).  `none` is the
`continue` on a row with fewer than two fields. -/
def parseStudentRow (today : String) (row : String) : Option Student :=
  let cols := parseCSVRow row
  if cols.length < 2 then none
  else
    let id := cols.getD 0 ""
    let name := cols.getD 1 ""
    let yearGroup := cols.getD 2 ""
    let attendance := cols.getD 3 ""
    let lessonsMissed := cols.getD 4 ""
    let gradesJson := cols.getD 5 ""
    let coreJson := cols.getD 6 ""
    let cleanAttendance : ℚ :=
      match parseFloatJS (stripToNumDot (if attendance = "" then "100" else attendance)) with
      | none => 100
      | some q => if q = 0 then 100 else q
    let cleanLessons : ℚ :=
      match parseIntJS (stripToNum (if lessonsMissed = "" then "0" else lessonsMissed)) with
      | none => 0
      | some n => (n : ℚ)
    let dec := decodeEmbedded gradesJson coreJson
    let s0 : Student :=
      { id := if id = "" then "S-" else id
        name := if name = "" then "Unknown Student" else name
        yearGroup := normalizeYearGroup (if yearGroup = "" then "DP1" else yearGroup)
        attendance := cleanAttendance
        lessonsMissed := cleanLessons
        grades := dec.1
        core := dec.2
        riskScore := 0
        totalPoints := 0
        lastUpdated := today
        historicalRiskScores := [{ date := today, score := 0 }] }
    some { s0 with totalPoints := calculateTotalPoints s0 }

/-- `parseManageBacCSV` from `services/dataService.ts`: split into lines,
drop blank (post-trim) lines, bail out on fewer than two lines, skip the
header, and normalize each remaining row. -/
def parseManageBacCSV (today : String) (fileContent : String) : List Student :=
  let rows := ((splitLinesC fileContent.data []).map String.mk).filter
    (fun row => ¬ (trimChars row.data).isEmpty)
  if rows.length < 2 then []
  else (rows.drop 1).filterMap (parseStudentRow today)


/-! ## Concrete sample data for witnesses and counterexamples -/

/-- A minimal plain record used as a base for concrete instances. -/
def baseStudent : Student :=
  { id := "S0", name := "Base", yearGroup := "DP1 (Y11)", attendance := 95,
    lessonsMissed := 0, grades := [], core := defaultCore, riskScore := 0,
    totalPoints := 0, lastUpdated := "2024-01-01",
    historicalRiskScores := [{ date := "2024-01-01", score := 0 }] }

/-- The sample grade of the CSV template row in `App.tsx` (`downloadTemplate`). -/
def sampleGrade : SubjectGrade :=
  { subject := "Math AA", level := "HL", currentMark := 3, predictedGrade := 0,
    trend := "down",
    assignments := [{ name := "IA Draft", score := 5, maxScore := 20,
                      type := "IA", status := "Missing" }] }

/-- A fully populated record mirroring the CSV template row in `App.tsx`. -/
def sampleStudent : Student :=
  { baseStudent with
      id := "2025101", name := "Sample Student",
      attendance := 92, lessonsMissed := 24,
      grades := [sampleGrade],
      core := { ee := "At Risk", tok := "In Progress", cas := "Behind", points := 1 } }

/-- A weight configuration with a negative attendance multiplier. -/
def negAttendanceWeights : RiskWeights :=
  { attendanceWeight := -1, lowGradeWeight := 0, coreRiskWeight := 0,
    trendWeight := 0, iaRiskWeight := 0, missingAssignmentWeight := 0 }

/-- A weight configuration with attendance multiplier one and the rest zero. -/
def unitAttendanceWeights : RiskWeights :=
  { attendanceWeight := 1, lowGradeWeight := 0, coreRiskWeight := 0,
    trendWeight := 0, iaRiskWeight := 0, missingAssignmentWeight := 0 }

/-- A record with attendance 50. -/
def lowAttStudent : Student := { baseStudent with attendance := 50 }

/-- A record whose attendance field is exactly 0. -/
def zeroAttStudent : Student := { baseStudent with attendance := 0 }

/-- A record whose core carries negative bonus points. -/
def negPointsStudent : Student :=
  { baseStudent with core := { defaultCore with points := -1 } }

/-- An existing roster entry with identity S1 and a ten-entry score trail. -/
def rosterEntryS1 : Student :=
  { baseStudent with
      id := "S1",
      historicalRiskScores :=
        (List.range 10).map (fun i => { date := "2024-01-01", score := (i : ℤ) }) }

/-- An incoming record carrying the same identity S1 and fresh fields. -/
def incomingS1 : Student := { sampleStudent with id := "S1" }

/-- A two-entry roster with distinct identities. -/
def rosterAB : List Student :=
  [{ baseStudent with id := "A" }, { baseStudent with id := "B" }]

/-- A batch holding one already-present identity and one new identity. -/
def batchAC : List Student :=
  [{ baseStudent with id := "A" }, { baseStudent with id := "C" }]

/-- The header line of the ingestion format. -/
def csvHeader : String := "id,name,yearGroup,attendance,lessonsMissed,grades,core"

/-- The sample data row of spec section 8 (identity S1, Jane Doe, cohort
token DP2 (Y12), attendance 88, missed sessions 24, one Math entry with
mark 3 and trend down, core ee At Risk / tok In Progress / cas Behind /
points 1), CSV-quoted with doubled quotes inside the two JSON columns. -/
def c9Row : String :=
  "S1,Jane Doe,DP2 (Y12),88,24,\"[\x7b\"\"subject\"\":\"\"Math\"\",\"\"currentMark\"\":3,\"\"trend\"\":\"\"down\"\",\"\"assignments\"\":[]\x7d]\",\"\x7b\"\"ee\"\":\"\"At Risk\"\",\"\"tok\"\":\"\"In Progress\"\",\"\"cas\"\":\"\"Behind\"\",\"\"points\"\":1\x7d\""

/-- The sample file: header plus the spec section 8 row. -/
def c9File : String := csvHeader ++ "\n" ++ c9Row

/-- A row whose subject-entries column is malformed JSON while its core
column is well formed. -/
def c4BadGradesRow : String :=
  "S1,Jane Doe,DP2 (Y12),88,24,badjson,\"\x7b\"\"ee\"\":\"\"At Risk\"\",\"\"tok\"\":\"\"In Progress\"\",\"\"cas\"\":\"\"Behind\"\",\"\"points\"\":1\x7d\""

/-- Header plus the malformed-grades row. -/
def c4BadGradesFile : String := csvHeader ++ "\n" ++ c4BadGradesRow

/-- A row whose subject-entries column is well formed while its core column
is malformed JSON. -/
def c4BadCoreRow : String :=
  "S1,Jane Doe,DP2 (Y12),88,24,\"[\x7b\"\"subject\"\":\"\"Math\"\",\"\"currentMark\"\":3,\"\"trend\"\":\"\"down\"\",\"\"assignments\"\":[]\x7d]\",notjson"

/-- The unescaped grades column of `c4BadCoreRow`. -/
def c4GradesStr : String :=
  "[\x7b\"subject\":\"Math\",\"currentMark\":3,\"trend\":\"down\",\"assignments\":[]\x7d]"

/-- The decoded JSON value of `c4GradesStr`. -/
def c4GradesVal : List JValue :=
  [JValue.jobj [("subject", JValue.jstr "Math"), ("currentMark", JValue.jnum 3),
                ("trend", JValue.jstr "down"), ("assignments", JValue.jarr [])]]

/-! ## Shared lemmas -/

theorem jsRound_nonneg {q : ℚ} (h : 0 ≤ q) : 0 ≤ jsRound q := by
  unfold jsRound
  refine Rat.le_floor.mpr ?_
  push_cast
  linarith

theorem attendanceContrib_nonneg (s : Student) (w : RiskWeights)
    (h : 0 ≤ w.attendanceWeight) : 0 ≤ attendanceContrib s w := by
  unfold attendanceContrib
  have h0 : (0:ℚ) ≤ max 0 (95 - (if s.attendance = 0 then 100 else s.attendance)) :=
    le_max_left _ _
  have := mul_nonneg (mul_nonneg h0 h) (by norm_num : (0:ℚ) ≤ 5)
  simpa using this

theorem assignContrib_nonneg (w : RiskWeights) (a : Assignment)
    (h : 0 ≤ w.iaRiskWeight) : 0 ≤ assignContrib w a := by
  unfold assignContrib
  split
  · exact mul_nonneg (by norm_num) h
  · exact le_refl 0

theorem gradeContrib_nonneg (w : RiskWeights) (g : SubjectGrade)
    (hl : 0 ≤ w.lowGradeWeight) (ht : 0 ≤ w.trendWeight)
    (hi : 0 ≤ w.iaRiskWeight) : 0 ≤ gradeContrib w g := by
  unfold gradeContrib
  have h1 : (0:ℚ) ≤
      if g.currentMark < 4 ∧ 0 < g.currentMark then
        (4 - g.currentMark) * 15 * w.lowGradeWeight else 0 := by
    split
    · next hc =>
        exact mul_nonneg (mul_nonneg (by linarith [hc.1]) (by norm_num)) hl
    · exact le_refl 0
  have h2 : (0:ℚ) ≤ if g.trend = "down" then 10 * w.trendWeight else 0 := by
    split
    · exact mul_nonneg (by norm_num) ht
    · exact le_refl 0
  have h3 : (0:ℚ) ≤ (g.assignments.map (assignContrib w)).sum := by
    refine List.sum_nonneg ?_
    intro x hx
    obtain ⟨a, _, rfl⟩ := List.mem_map.mp hx
    exact assignContrib_nonneg w a hi
  linarith

theorem coreContrib_nonneg (s : Student) (w : RiskWeights)
    (h : 0 ≤ w.coreRiskWeight) : 0 ≤ coreContrib s w := by
  unfold coreContrib
  have h1 : (0:ℚ) ≤ if s.core.ee = "At Risk" then 35 * w.coreRiskWeight else 0 := by
    split
    · exact mul_nonneg (by norm_num) h
    · exact le_refl 0
  have h2 : (0:ℚ) ≤ if s.core.tok = "At Risk" then 30 * w.coreRiskWeight else 0 := by
    split
    · exact mul_nonneg (by norm_num) h
    · exact le_refl 0
  have h3 : (0:ℚ) ≤ if s.core.cas = "Behind" then 25 * w.coreRiskWeight else 0 := by
    split
    · exact mul_nonneg (by norm_num) h
    · exact le_refl 0
  linarith

theorem riskRaw_nonneg (s : Student) (w : RiskWeights)
    (ha : 0 ≤ w.attendanceWeight) (hl : 0 ≤ w.lowGradeWeight)
    (hc : 0 ≤ w.coreRiskWeight) (ht : 0 ≤ w.trendWeight)
    (hi : 0 ≤ w.iaRiskWeight) (hm : 0 ≤ w.missingAssignmentWeight) :
    0 ≤ riskRaw s w := by
  unfold riskRaw
  have h1 := attendanceContrib_nonneg s w ha
  have h2 : (0:ℚ) ≤ (s.grades.map (gradeContrib w)).sum := by
    refine List.sum_nonneg ?_
    intro x hx
    obtain ⟨g, _, rfl⟩ := List.mem_map.mp hx
    exact gradeContrib_nonneg w g hl ht hi
  have h3 : (0:ℚ) ≤ (missingCount s : ℚ) * 12 * w.missingAssignmentWeight :=
    mul_nonneg (mul_nonneg (by positivity) (by norm_num)) hm
  have h4 := coreContrib_nonneg s w hc
  linarith

/-! ## Claim theorems: the scoring engine -/

/-- Claim C1 (corrected): with the claimed universal quantification over
caller-supplied weight configurations, `calculateRiskScore` is only capped
above at 100; the lower bound 0 additionally needs every multiplier to be
nonnegative, because the code computes `Math.min(100, Math.round(score))`
with no clamp from below. -/
theorem c1_riskScore_range (s : Student) (w : RiskWeights) :
    calculateRiskScore s w ≤ 100 ∧
    (0 ≤ w.attendanceWeight → 0 ≤ w.lowGradeWeight → 0 ≤ w.coreRiskWeight →
      0 ≤ w.trendWeight → 0 ≤ w.iaRiskWeight → 0 ≤ w.missingAssignmentWeight →
      0 ≤ calculateRiskScore s w) := by
  constructor
  · exact min_le_left _ _
  · intro ha hl hc ht hi hm
    unfold calculateRiskScore
    exact le_min (by norm_num) (jsRound_nonneg (riskRaw_nonneg s w ha hl hc ht hi hm))

/-- Claim C2 (confirmed): the scored record built during a merge carries an
academic-points aggregate that does not depend on which weight configuration
is in effect — `calculateTotalPoints` never reads the weights. -/
theorem c2_points_weight_independent (s : Student) (w₁ w₂ : RiskWeights) :
    (withStats s w₁).totalPoints = (withStats s w₂).totalPoints := rfl

/-- Claim C5 (corrected): the attendance term equals
`max(0, 95 - attendanceRate) * 5 * weights.attendance` only when
`attendanceRate` is not `0`; the falsy value `0` is replaced by the default
`100` before the deficit is computed. -/
theorem c5_attendance_formula (s : Student) (w : RiskWeights)
    (h : s.attendance ≠ 0) :
    attendanceContrib s w = max 0 (95 - s.attendance) * 5 * w.attendanceWeight := by
  unfold attendanceContrib
  rw [if_neg h]
  ring

/-- Claim C6 (corrected): `calculateTotalPoints` is capped at 45
unconditionally, but the lower bound 0 needs `coreProgress.corePoints` to be
nonnegative — the code computes `Math.min(45, …)` with no clamp from below,
and a record with negative decoded `points` yields a negative result. -/
theorem c6_academicPoints_range (s : Student) :
    calculateTotalPoints s ≤ 45 ∧
    (0 ≤ s.core.points → 0 ≤ calculateTotalPoints s) := by
  constructor
  · exact min_le_left _ _
  · intro h
    unfold calculateTotalPoints
    refine le_min (by norm_num) (add_nonneg ?_ h)
    refine List.sum_nonneg ?_
    intro x hx
    obtain ⟨g, _, rfl⟩ := List.mem_map.mp hx
    split
    · next hc => linarith [hc.1]
    · exact le_refl 0

/-- Claim C10 (confirmed): a record whose attendance field is exactly `0`
contributes nothing for attendance (`student.attendance || 100` replaces the
falsy `0` with the default `100`, and the deficit of `100` is `0`), so it is
scored exactly as if it had full attendance. -/
theorem c10_zero_attendance (s : Student) (w : RiskWeights)
    (h : s.attendance = 0) :
    attendanceContrib s w = 0 ∧
    calculateRiskScore s w = calculateRiskScore { s with attendance := 100 } w := by
  have h1 : attendanceContrib s w = 0 := by
    unfold attendanceContrib
    rw [if_pos h]
    norm_num
  have h2 : attendanceContrib { s with attendance := 100 } w = 0 := by
    unfold attendanceContrib
    norm_num
  refine ⟨h1, ?_⟩
  unfold calculateRiskScore riskRaw
  rw [h1, h2]
  rfl

/-! ## Merge engine lemmas -/

theorem lastN_length_le (n : ℕ) (l : List α) : (lastN n l).length ≤ n := by
  simp only [lastN, List.length_drop]
  omega

theorem mergeOne_append (w : RiskWeights) (now : String) (r : Student) :
    ∀ (pre l : List Student), (∀ x ∈ pre, x.id ≠ r.id) →
      mergeOne w now (pre ++ l) r = pre ++ mergeOne w now l r := by
  intro pre
  induction pre with
  | nil => intro l _; simp
  | cons a t ih =>
      intro l h
      simp only [List.cons_append, mergeOne, List.append_eq]
      rw [if_neg (h a (List.mem_cons_self a t))]
      rw [ih l (fun x hx => h x (List.mem_cons_of_mem a hx))]

theorem rosterIds_mergeOne (w : RiskWeights) (now : String) (r : Student) :
    ∀ l : List Student,
      rosterIds (mergeOne w now l r)
        = if r.id ∈ rosterIds l then rosterIds l else rosterIds l ++ [r.id] := by
  intro l
  induction l with
  | nil => simp [mergeOne, rosterIds, withStats]
  | cons a t ih =>
      by_cases hid : a.id = r.id
      · simp only [mergeOne, if_pos hid, rosterIds, List.map_cons]
        have hm : (mergedEntry w now a r).id = r.id := rfl
        rw [hm]
        rw [if_pos (by simp [rosterIds, hid])]
        simp [hid]
      · simp only [mergeOne, if_neg hid, rosterIds, List.map_cons]
        have hmem : (r.id ∈ Student.id a :: List.map Student.id t)
            ↔ r.id ∈ List.map Student.id t := by
          constructor
          · intro hx
            rcases List.mem_cons.mp hx with h1 | h1
            · exact absurd h1.symm hid
            · exact h1
          · exact fun hx => List.mem_cons_of_mem _ hx
        by_cases hmem2 : r.id ∈ List.map Student.id t
        · rw [if_pos (hmem.mpr hmem2)]
          have := ih
          simp only [rosterIds] at this
          rw [this, if_pos hmem2]
        · rw [if_neg (fun hx => hmem2 (hmem.mp hx))]
          have := ih
          simp only [rosterIds] at this
          rw [this, if_neg hmem2]
          simp

/-! ## Claim theorems: the merge engine -/

/-- Claim C3 (confirmed): merging a batch holding exactly one record whose
identity matches exactly one roster entry replaces that entry in place with
the scored incoming record (every field from the incoming record except
`historicalScores`, with `riskScore`/`academicPoints` freshly computed),
appends one `{timestamp: now, score: new riskScore}` entry to the matched
entry's prior trail keeping only the 10 most recent, and leaves the roster
size unchanged. -/
theorem c3_merge_existing (w : RiskWeights) (now : String)
    (pre post : List Student) (e r : Student)
    (hpre : ∀ x ∈ pre, x.id ≠ r.id) (he : e.id = r.id)
    (hpost : ∀ x ∈ post, x.id ≠ r.id) :
    mergeStudents w now (pre ++ e :: post) [r]
      = pre ++ ({ withStats r w with
          historicalRiskScores :=
            lastN 10 (e.historicalRiskScores
              ++ [{ date := now, score := calculateRiskScore r w }]) } :: post)
    ∧ (mergeStudents w now (pre ++ e :: post) [r]).length
        = (pre ++ e :: post).length
    ∧ (lastN 10 (e.historicalRiskScores
        ++ [{ date := now, score := calculateRiskScore r w }])).length ≤ 10 := by
  have hmain : mergeStudents w now (pre ++ e :: post) [r]
      = pre ++ ({ withStats r w with
          historicalRiskScores :=
            lastN 10 (e.historicalRiskScores
              ++ [{ date := now, score := calculateRiskScore r w }]) } :: post) := by
    show mergeOne w now (pre ++ e :: post) r = _
    rw [mergeOne_append w now r pre (e :: post) hpre]
    simp only [mergeOne, if_pos he]
    rfl
  refine ⟨hmain, ?_, lastN_length_le _ _⟩
  rw [hmain]
  simp

/-- Claim C8 (confirmed): when the existing roster has pairwise-distinct
identities, the merged roster does too — an incoming identity already
present replaces an entry (identities unchanged) and a new identity is
appended exactly once. -/
theorem c8_merge_preserves_nodup (w : RiskWeights) (now : String)
    (roster batch : List Student) (h : (rosterIds roster).Nodup) :
    (rosterIds (mergeStudents w now roster batch)).Nodup := by
  induction batch generalizing roster with
  | nil => simpa [mergeStudents] using h
  | cons b bs ih =>
      show (rosterIds (mergeStudents w now (mergeOne w now roster b) bs)).Nodup
      apply ih
      rw [rosterIds_mergeOne]
      by_cases hmem : b.id ∈ rosterIds roster
      · rwa [if_pos hmem]
      · rw [if_neg hmem]
        rw [List.nodup_append]
        exact ⟨h, List.nodup_singleton _, by
          intro x hx hx2
          rcases List.mem_singleton.mp hx2 with rfl
          exact hmem hx⟩

/-! ## Delimited-row parser lemmas -/

theorem csvGo_quote_openEq (rest : List Char) (cur : List Char) (res : List String) :
    csvGo ('"' :: rest) false cur res = csvGo rest true cur res := by
  rw [csvGo.eq_def]
  rfl

theorem csvGo_quote_ddEq (rest2 : List Char) (cur : List Char) (res : List String) :
    csvGo ('"' :: '"' :: rest2) true cur res = csvGo rest2 true (cur ++ ['"']) res := by
  rw [csvGo.eq_def]
  rfl

theorem csvGo_quote_closeNilEq (cur : List Char) (res : List String) :
    csvGo ['"'] true cur res = csvGo [] false cur res := by
  rw [csvGo.eq_def]
  rfl

theorem csvGo_quote_closeEq (c2 : Char) (rest2 : List Char) (cur : List Char)
    (res : List String) (h : c2 ≠ '"') :
    csvGo ('"' :: c2 :: rest2) true cur res = csvGo (c2 :: rest2) false cur res := by
  rw [csvGo.eq_def]
  simp [h]

theorem csvGo_commaEq (rest : List Char) (cur : List Char) (res : List String) :
    csvGo (',' :: rest) false cur res
      = csvGo rest false [] (res ++ [jsTrim (String.mk cur)]) := by
  rw [csvGo.eq_def]
  rfl

theorem csvGo_otherEq (c : Char) (rest : List Char) (cur : List Char)
    (res : List String) (hq : c ≠ '"') :
    csvGo (c :: rest) true cur res = csvGo rest true (cur ++ [c]) res := by
  rw [csvGo.eq_def]
  simp [hq]

theorem csvGo_escDD (f : List Char) :
    ∀ (rest cur : List Char) (res : List String),
      rest.head? ≠ some '"' →
      csvGo (escDD f ++ '"' :: rest) true cur res = csvGo rest false (cur ++ f) res := by
  induction f with
  | nil =>
      intro rest cur res h
      simp only [escDD, List.nil_append, List.append_nil]
      cases rest with
      | nil => exact csvGo_quote_closeNilEq cur res
      | cons c2 r2 =>
          have hc2 : c2 ≠ '"' := by
            intro hx
            exact h (by simp [hx])
          exact csvGo_quote_closeEq c2 r2 cur res hc2
  | cons a f' ih =>
      intro rest cur res h
      by_cases ha : a = '"'
      · subst ha
        have : escDD ('"' :: f') = '"' :: '"' :: escDD f' := by simp [escDD]
        rw [this]
        simp only [List.cons_append]
        rw [csvGo_quote_ddEq]
        rw [ih rest (cur ++ ['"']) res h]
        simp
      · have : escDD (a :: f') = a :: escDD f' := by simp [escDD, ha]
        rw [this]
        simp only [List.cons_append]
        have step : csvGo (a :: (escDD f' ++ '"' :: rest)) true cur res
            = csvGo (escDD f' ++ '"' :: rest) true (cur ++ [a]) res :=
          csvGo_otherEq a _ cur res ha
        rw [step, ih rest (cur ++ [a]) res h]
        simp

theorem csvGo_encRow :
    ∀ (fs : List (List Char)) (f : List Char) (res : List String),
      csvGo (encRowChars (f :: fs)) false [] res
        = res ++ (f :: fs).map (fun g => jsTrim (String.mk g)) := by
  intro fs
  induction fs with
  | nil =>
      intro f res
      show csvGo (encFieldChars f) false [] res = _
      simp only [encFieldChars]
      rw [csvGo_quote_openEq]
      have : escDD f ++ ['"'] = escDD f ++ '"' :: [] := rfl
      rw [this, csvGo_escDD f [] [] res (by simp)]
      simp [csvGo]
  | cons g fs' ih =>
      intro f res
      show csvGo (encFieldChars f ++ ',' :: encRowChars (g :: fs')) false [] res = _
      simp only [encFieldChars, List.cons_append, List.append_assoc]
      rw [csvGo_quote_openEq]
      simp only [List.nil_append]
      have hstep : csvGo (escDD f ++ ('"' :: (',' :: encRowChars (g :: fs')))) true [] res
          = csvGo (',' :: encRowChars (g :: fs')) false f res :=
        csvGo_escDD f (',' :: encRowChars (g :: fs')) [] res (by simp)
      rw [hstep]
      rw [csvGo_commaEq]
      rw [ih g (res ++ [jsTrim (String.mk f)])]
      simp

/-! ## Claim theorem: the delimited-row parser -/

/-- Claim C7 (confirmed): for every nonempty sequence of field contents,
quoting each field (wrapping in quotes with every inner quote doubled) and
joining with commas round-trips through `parseCSVRow`: each quoted field
comes back as exactly one element with embedded delimiters kept unsplit and
each doubled quote turned back into one literal quote (fields are trimmed
of surrounding whitespace, as the parser always does). -/
theorem c7_quoted_fields_roundtrip (fs : List String) (h : fs ≠ []) :
    parseCSVRow (encodeRow fs) = fs.map jsTrim := by
  obtain ⟨f, fs', rfl⟩ := List.exists_cons_of_ne_nil h
  show csvGo (encodeRow (f :: fs')).data false [] [] = _
  have hdata : (encodeRow (f :: fs')).data
      = encRowChars (f.data :: fs'.map String.data) := rfl
  rw [hdata, csvGo_encRow (fs'.map String.data) f.data []]
  simp only [List.nil_append, List.map_cons, List.map_map]
  rfl

/-! ## Claim theorem: embedded-column decode failures -/

/-- Claim C4 (corrected): a decode failure in the core column alone is
isolated — the row is still accepted, the already-decoded subject entries
are kept and only the core column falls back to the baseline.  (The claimed
symmetric case fails: both `JSON.parse` calls sit in one shared
`try`/`catch`, so a malformed subject-entries column also resets the core
column to its baseline — see the counterexample.) -/
theorem c4_core_decode_isolated (today row gs cs : String) (xs : List JValue)
    (h2 : ¬ (parseCSVRow row).length < 2)
    (hg : needsParse ((parseCSVRow row).getD 5 "") = some gs)
    (hga : parseJson gs = some (JValue.jarr xs))
    (hc : needsParse ((parseCSVRow row).getD 6 "") = some cs)
    (hcp : parseJson cs = none) :
    ∃ s, parseStudentRow today row = some s
      ∧ s.grades = xs.map decodeGrade ∧ s.core = defaultCore := by
  have hde : decodeEmbedded ((parseCSVRow row).getD 5 "") ((parseCSVRow row).getD 6 "")
      = (xs.map decodeGrade, defaultCore) := by
    unfold decodeEmbedded decodeCoreCol
    simp only [hg, hga, hc, hcp]
  simp only [parseStudentRow]
  rw [if_neg h2]
  refine ⟨_, rfl, ?_, ?_⟩
  · exact congrArg Prod.fst hde
  · exact congrArg Prod.snd hde

section ConcreteEvaluation

attribute [local semireducible] Rat.mul Rat.add Rat.sub Rat.inv Rat.ofScientific

/-- Witness for C1 at the default weights and the template record. -/
theorem c1_riskScore_range_witness :
    (0 ≤ DEFAULT_WEIGHTS.attendanceWeight ∧ 0 ≤ DEFAULT_WEIGHTS.lowGradeWeight
      ∧ 0 ≤ DEFAULT_WEIGHTS.coreRiskWeight ∧ 0 ≤ DEFAULT_WEIGHTS.trendWeight
      ∧ 0 ≤ DEFAULT_WEIGHTS.iaRiskWeight ∧ 0 ≤ DEFAULT_WEIGHTS.missingAssignmentWeight)
    ∧ calculateRiskScore sampleStudent DEFAULT_WEIGHTS ≤ 100
    ∧ 0 ≤ calculateRiskScore sampleStudent DEFAULT_WEIGHTS :=
  ⟨by decide, (c1_riskScore_range sampleStudent DEFAULT_WEIGHTS).1,
    (c1_riskScore_range sampleStudent DEFAULT_WEIGHTS).2
      (by decide) (by decide) (by decide) (by decide) (by decide) (by decide)⟩

/-- Counterexample for C1 as frozen: with a caller-supplied negative
attendance multiplier (honored as-is), the returned risk score is negative,
so it is not within [0,100]. -/
theorem c1_riskScore_counterexample :
    calculateRiskScore lowAttStudent negAttendanceWeights < 0 := by decide

/-- Witness for C5 at a record with nonzero attendance. -/
theorem c5_attendance_formula_witness :
    sampleStudent.attendance ≠ 0
    ∧ attendanceContrib sampleStudent DEFAULT_WEIGHTS
        = max 0 (95 - sampleStudent.attendance) * 5 * DEFAULT_WEIGHTS.attendanceWeight :=
  ⟨by decide, c5_attendance_formula sampleStudent DEFAULT_WEIGHTS (by decide)⟩

/-- Counterexample for C5 as frozen: at attendance exactly 0 the code
contributes 0 (the claimed formula would give 475 with attendance
multiplier 1). -/
theorem c5_attendance_counterexample :
    attendanceContrib zeroAttStudent unitAttendanceWeights
      ≠ max 0 (95 - zeroAttStudent.attendance) * 5
          * unitAttendanceWeights.attendanceWeight := by decide

/-- Witness for C6 at the template record. -/
theorem c6_academicPoints_range_witness :
    calculateTotalPoints sampleStudent ≤ 45
    ∧ 0 ≤ sampleStudent.core.points
    ∧ 0 ≤ calculateTotalPoints sampleStudent :=
  ⟨(c6_academicPoints_range sampleStudent).1, by decide,
    (c6_academicPoints_range sampleStudent).2 (by decide)⟩

/-- Counterexample for C6 as frozen: with negative core points (which the
normalizer accepts from the embedded JSON) the academic-points aggregate is
negative, so it is not within [0,45]. -/
theorem c6_academicPoints_counterexample :
    calculateTotalPoints negPointsStudent < 0 := by decide

/-- Witness for C10 at a zero-attendance record and the default weights. -/
theorem c10_zero_attendance_witness :
    zeroAttStudent.attendance = 0
    ∧ attendanceContrib zeroAttStudent DEFAULT_WEIGHTS = 0
    ∧ calculateRiskScore zeroAttStudent DEFAULT_WEIGHTS
        = calculateRiskScore { zeroAttStudent with attendance := 100 } DEFAULT_WEIGHTS :=
  ⟨rfl, (c10_zero_attendance zeroAttStudent DEFAULT_WEIGHTS rfl).1,
    (c10_zero_attendance zeroAttStudent DEFAULT_WEIGHTS rfl).2⟩

/-- Witness for C3: merging one incoming record whose identity matches the
single roster entry. -/
theorem c3_merge_existing_witness :
    mergeStudents DEFAULT_WEIGHTS "2024-02-01" [rosterEntryS1] [incomingS1]
      = [{ withStats incomingS1 DEFAULT_WEIGHTS with
            historicalRiskScores :=
              lastN 10 (rosterEntryS1.historicalRiskScores
                ++ [{ date := "2024-02-01",
                      score := calculateRiskScore incomingS1 DEFAULT_WEIGHTS }]) }]
    ∧ (mergeStudents DEFAULT_WEIGHTS "2024-02-01" [rosterEntryS1] [incomingS1]).length
        = 1 := by
  have h := c3_merge_existing DEFAULT_WEIGHTS "2024-02-01" [] [] rosterEntryS1 incomingS1
    (by simp) (by decide) (by simp)
  exact ⟨by simpa using h.1, by simpa using h.2.1⟩

/-- Witness for C8 on a concrete roster and batch. -/
theorem c8_merge_preserves_nodup_witness :
    (rosterIds rosterAB).Nodup
    ∧ (rosterIds (mergeStudents DEFAULT_WEIGHTS "2024-02-01" rosterAB batchAC)).Nodup :=
  ⟨by decide,
    c8_merge_preserves_nodup DEFAULT_WEIGHTS "2024-02-01" rosterAB batchAC (by decide)⟩

/-- Witness for C7: a field with an embedded delimiter, a field with a
doubled-quote escape and a field with surrounding whitespace round-trip as
claimed. -/
theorem c7_quoted_fields_roundtrip_witness :
    (["a,b", "x\"y", " c "] : List String) ≠ []
    ∧ parseCSVRow (encodeRow ["a,b", "x\"y", " c "])
        = (["a,b", "x\"y", " c "] : List String).map jsTrim
    ∧ (["a,b", "x\"y", " c "] : List String).map jsTrim = ["a,b", "x\"y", "c"] :=
  ⟨by decide, c7_quoted_fields_roundtrip _ (by decide), by decide⟩

set_option maxRecDepth 40000 in
/-- Claim C9 (confirmed): normalizing the section-8 sample row and scoring
it with the default weights yields `academicPoints = 4` and
`riskScore = 24`. -/
theorem c9_sample_row_scores :
    (parseManageBacCSV "2024-01-01" c9File).map
      (fun s => (s.totalPoints, calculateRiskScore s DEFAULT_WEIGHTS)) = [(4, 24)] := by
  decide

set_option maxRecDepth 40000 in
/-- Counterexample for C4 as frozen: on a row whose subject-entries column
is malformed while its core column is well formed, the pipeline resets the
core to the baseline (the shared catch skipped the core decode), even
though decoding the core column alone yields a non-baseline record. -/
theorem c4_isolation_counterexample :
    (parseManageBacCSV "2024-01-01" c4BadGradesFile).map (fun s => (s.grades, s.core))
      = [([], defaultCore)]
    ∧ decodeCoreCol ((parseCSVRow c4BadGradesRow).getD 6 "")
        = { ee := "At Risk", tok := "In Progress", cas := "Behind", points := 1 }
    ∧ ({ ee := "At Risk", tok := "In Progress", cas := "Behind", points := 1 } : CoreStatus)
        ≠ defaultCore := by
  refine ⟨by decide, by decide, by decide⟩

set_option maxRecDepth 40000 in
/-- Witness for C4 (amended) on a concrete row with a well-formed grades
column and a malformed core column. -/
theorem c4_core_decode_isolated_witness :
    ∃ s, parseStudentRow "2024-01-01" c4BadCoreRow = some s
      ∧ s.grades = c4GradesVal.map decodeGrade ∧ s.core = defaultCore :=
  c4_core_decode_isolated "2024-01-01" c4BadCoreRow c4GradesStr "notjson" c4GradesVal
    (by decide) rfl rfl rfl rfl

end ConcreteEvaluation
